import Mathlib

/-!
The `solution list` command of fsoc (`cmd/solution/list.go`).

A shallow embedding of `getSolutionList`, `getSolutionListUrl` and
`getSolutionNames`, together with the library routines they lean on
(`net/url.QueryEscape`, `net/url.QueryUnescape`, `strings.HasPrefix`, the
`Changed` mark of a `pflag.Flag`), and the properties of the command's
contract proved over that embedding. The escaping routines follow the Go
standard library, early exits included; `QueryUnescape_QueryEscape` shows
that the second inverts the first on every byte string.

Conventions.
* A Go `string` is its sequence of bytes, a `List Nat` (every byte below 256).
* A Go `map[string]string` is an association list with distinct keys, built
  by `GoMap.set` in the order of the map literal.
* Side effects (log lines, `println`, the calls handed to the fetch
  collaborators) are recorded in a trace of `Event`s, in program order.
* `config.GetCurrentContext()` is read from a `Context` argument and
  `api.JSONGet` is an argument of `getSolutionNames`: both live outside
  `list.go`.
-/

set_option maxRecDepth 10000

namespace Fsoc

/-! ## Go strings and maps -/

/-- A Go `string`: a sequence of bytes. -/
abbrev GoString := List Nat

/-- The bytes of a string literal (UTF-8, as the Go compiler stores it). -/
def str (s : String) : GoString := s.toUTF8.data.toList.map UInt8.toNat

/-- A Go `bool`. -/
abbrev GoBool := Bool

/-- The byte of an ASCII character literal. -/
def byte (c : Char) : Nat := c.toNat

deriving instance DecidableEq for Except

/-- A Go `map[string]string`, as an association list with distinct keys. -/
structure GoMap where
  entries : List (GoString × GoString)
  deriving DecidableEq, Repr

/-- The empty map of a map literal. -/
def GoMap.empty : GoMap := ⟨[]⟩

/-- The map read `m[k]` (with the presence mark). -/
def GoMap.get (m : GoMap) (k : GoString) : Option GoString :=
  (m.entries.find? (fun e => e.1 == k)).map Prod.snd

/-- The map write `m[k] = v`. -/
def GoMap.set (m : GoMap) (k v : GoString) : GoMap :=
  if m.entries.any (fun e => e.1 == k) then
    ⟨m.entries.map (fun e => if e.1 == k then (k, v) else e)⟩
  else ⟨m.entries ++ [(k, v)]⟩

/-! ## `strings.HasPrefix` -/

namespace strings

/-- Go: `return len(s) >= len(prefix) && s[:len(prefix)] == prefix`. -/
def HasPrefix (s pfx : GoString) : Bool :=
  decide (s.length ≥ pfx.length) && (s.take pfx.length == pfx)

end strings

/-! ## `net/url`: query escaping (mode `encodeQueryComponent`) -/

namespace url

/-- Go: `const upperhex = "0123456789ABCDEF"`. -/
def upperhex : GoString := str "0123456789ABCDEF"

/-- Go: `ishex`. -/
def ishex (c : Nat) : Bool :=
  if byte '0' ≤ c ∧ c ≤ byte '9' then true
  else if byte 'a' ≤ c ∧ c ≤ byte 'f' then true
  else if byte 'A' ≤ c ∧ c ≤ byte 'F' then true
  else false

/-- Go: `unhex`. -/
def unhex (c : Nat) : Nat :=
  if byte '0' ≤ c ∧ c ≤ byte '9' then c - byte '0'
  else if byte 'a' ≤ c ∧ c ≤ byte 'f' then c - byte 'a' + 10
  else if byte 'A' ≤ c ∧ c ≤ byte 'F' then c - byte 'A' + 10
  else 0

/-- Go: `shouldEscape(c, encodeQueryComponent)`. Alphanumerics and the marks
`- _ . ~` are kept; the reserved characters are escaped in a query component;
everything else is escaped. -/
def shouldEscape (c : Nat) : Bool :=
  if (byte 'a' ≤ c ∧ c ≤ byte 'z') ∨ (byte 'A' ≤ c ∧ c ≤ byte 'Z') ∨
      (byte '0' ≤ c ∧ c ≤ byte '9') then false
  else if c = byte '-' ∨ c = byte '_' ∨ c = byte '.' ∨ c = byte '~' then false
  else if c ∈ [byte '$', byte '&', byte '+', byte ',', byte '/', byte ':', byte ';',
      byte '=', byte '?', byte '@'] then true
  else true

/-- First loop of `escape`: `(spaceCount, hexCount)`. -/
def escapeCount (s : GoString) : Nat × Nat :=
  s.foldl
    (fun acc c =>
      if shouldEscape c then
        if c = byte ' ' then (acc.1 + 1, acc.2) else (acc.1, acc.2 + 1)
      else acc)
    (0, 0)

/-- Last loop of `escape`: a space becomes `+`, a byte to escape becomes
`%` and its two upper-case hex digits, any other byte is copied. -/
def escapeLoop : GoString → GoString
  | [] => []
  | c :: rest =>
    if c = byte ' ' then byte '+' :: escapeLoop rest
    else if shouldEscape c then
      byte '%' :: upperhex.getD (c >>> 4) 0 :: upperhex.getD (c &&& 15) 0 :: escapeLoop rest
    else c :: escapeLoop rest

/-- Go: `escape(s, encodeQueryComponent)`, with its two early exits: nothing
to escape returns `s`; only spaces to escape copies `s` and overwrites them. -/
def escape (s : GoString) : GoString :=
  let (spaceCount, hexCount) := escapeCount s
  if spaceCount = 0 ∧ hexCount = 0 then s
  else if hexCount = 0 then s.map (fun c => if c = byte ' ' then byte '+' else c)
  else escapeLoop s

/-- Go: `func QueryEscape(s string) string`. -/
def QueryEscape (s : GoString) : GoString := escape s

/-- Go: `type EscapeError string`, the offending piece of the input. -/
structure EscapeError where
  piece : GoString
  deriving DecidableEq, Repr

/-- First loop of `unescape`: counts the `%` (argument `n`), notes a `+`
(argument `hasPlus`), and fails on a `%` not followed by two hex digits with
the at most three bytes from that `%` on. -/
def unescapeScan : GoString → Nat → Bool → Except EscapeError (Nat × Bool)
  | [], n, hasPlus => .ok (n, hasPlus)
  | c :: rest, n, hasPlus =>
    if c = byte '%' then
      match rest with
      | h1 :: h2 :: rest2 =>
        if ishex h1 && ishex h2 then unescapeScan rest2 (n + 1) hasPlus
        else .error ⟨(c :: rest).take 3⟩
      | _ => .error ⟨(c :: rest).take 3⟩
    else if c = byte '+' then unescapeScan rest n true
    else unescapeScan rest n hasPlus

/-- Second loop of `unescape`: `%XY` becomes the byte `unhex X << 4 | unhex Y`,
`+` becomes a space. It runs only after `unescapeScan` succeeded, so a `%` is
always followed by two bytes. -/
def unescapeBuild : GoString → GoString
  | [] => []
  | c :: rest =>
    if c = byte '%' then
      match rest with
      | h1 :: h2 :: rest2 => (((unhex h1 <<< 4) % 256) ||| unhex h2) :: unescapeBuild rest2
      | _ => []
    else if c = byte '+' then byte ' ' :: unescapeBuild rest
    else c :: unescapeBuild rest

/-- Go: `unescape(s, encodeQueryComponent)`. -/
def unescape (s : GoString) : Except EscapeError GoString :=
  match unescapeScan s 0 false with
  | .error e => .error e
  | .ok (n, hasPlus) =>
    if n = 0 ∧ hasPlus = false then .ok s else .ok (unescapeBuild s)

/-- Go: `func QueryUnescape(s string) (string, error)`. -/
def QueryUnescape (s : GoString) : Except EscapeError GoString := unescape s

end url

/-! ## The collaborators of `list.go` -/

/-- The part of a `pflag.Flag` the command reads: its name, its current
boolean value, and whether the user set it. -/
structure Flag where
  Name : GoString
  Value : Bool
  Changed : Bool
  deriving DecidableEq, Repr

/-- A `pflag.FlagSet`: the registered flags. -/
structure FlagSet where
  flags : List Flag
  deriving DecidableEq, Repr

/-- Go: `func (f *FlagSet) Lookup(name string) *Flag`; `none` is the nil
pointer returned for a name that was never registered. -/
def FlagSet.Lookup (f : FlagSet) (name : GoString) : Option Flag :=
  f.flags.find? (fun fl => fl.Name == name)

/-- Go: `func (f *FlagSet) Bool(name string, value bool, usage string)`:
registers a boolean flag at its default, not yet changed. -/
def FlagSet.Bool (f : FlagSet) (name : GoString) (value : GoBool) (_usage : GoString) : FlagSet :=
  ⟨f.flags ++ [⟨name, value, false⟩]⟩

/-- Go: `func (f *FlagSet) Set(name, value string)` on a boolean flag, as the
argument parser calls it for `--name` and `--name=value`: stores the value
and marks the flag changed. -/
def FlagSet.Set (f : FlagSet) (name : GoString) (value : GoBool) : FlagSet :=
  ⟨f.flags.map (fun fl => if fl.Name == name then ⟨fl.Name, value, true⟩ else fl)⟩

/-- The part of a `cobra.Command` the command reads: its flag set
(`cmd.Flags()`). -/
structure Command where
  Flags : FlagSet
  deriving DecidableEq, Repr

/-- The part of `config.Context` the command reads. -/
structure Context where
  Tenant : GoString
  deriving DecidableEq, Repr

/-- Go: `cmdkit.FetchAndPrintOptions{Headers: ..., IsCollection: ...}`. -/
structure FetchAndPrintOptions where
  Headers : GoMap
  IsCollection : Bool
  deriving DecidableEq, Repr

/-- Go: `api.Options{Headers: ...}`. -/
structure Options where
  Headers : GoMap
  deriving DecidableEq, Repr

/-- Modelled from the spec: the declaration of `Solution` is not in
`list.go`. An item with its identifier `id`, `data.name`, `data.isSystem`,
`data.isSubscribed`, `data.dependencies` and the two timestamps. -/
structure Solution where
  ID : GoString
  Name : GoString
  IsSystem : Bool
  IsSubscribed : Bool
  Dependencies : List GoString
  CreatedAt : GoString
  UpdatedAt : GoString
  deriving DecidableEq, Repr

/-- Modelled from the spec: the declaration of `SolutionList` is not in
`list.go`. An ordered collection wrapper with the single field `items`. -/
structure SolutionList where
  Items : List Solution
  deriving DecidableEq, Repr

/-- A Go `error` value returned by the fetch client (its message). -/
structure GoError where
  msg : GoString
  deriving DecidableEq, Repr

/-- One observable step of a run, in program order. -/
inductive Event where
  | logInfo (msg : GoString)
  | logFatal (msg : GoString)
  | println (s : GoString)
  | FetchAndPrint (cmd : Command) (path : GoString) (options : FetchAndPrintOptions)
  | JSONGet (path : GoString) (options : Options)
  deriving DecidableEq, Repr

/-- How the command's own code stops: `exited code` is `os.Exit(code)`
(what `log.Fatalf` ends with), `panicked` a nil-pointer dereference,
`delegated` the final call to `cmdkit.FetchAndPrint`, after which nothing of
`getSolutionList` is left to run. -/
inductive Status where
  | delegated
  | exited (code : Nat)
  | panicked
  deriving DecidableEq, Repr

/-- A run of the command: what it did and how it stopped. -/
structure Run where
  trace : List Event
  status : Status
  deriving DecidableEq, Repr

/-! ## `cmd/solution/list.go` -/

/-- Go: `getSolutionListCmd`, the flags it registers on `solutionListCmd`. -/
def getSolutionListCmd : Command :=
  let flags : FlagSet := ⟨[]⟩
  let flags := flags.Bool (str "subscribed") false
    (str "Use this to only see solutions that you are subscribed to")
  let flags := flags.Bool (str "unsubscribed") false
    (str "Use this to only see solutions that you are unsubscribed to")
  ⟨flags⟩

/-- Go: `func getSolutionListUrl() string`. -/
def getSolutionListUrl : GoString := str "objstore/v1beta/objects/extensibility:solution"

/-- Go: `func getSolutionList(cmd *cobra.Command, args []string)`, with the
current context `cfg` that `config.GetCurrentContext()` returns. -/
def getSolutionList (cfg : Context) (cmd : Command) (_args : List GoString) : Run :=
  let t := [Event.logInfo (str "Fetching the list of solutions...")]
  -- get subscribe and unsubscribe flags
  match cmd.Flags.Lookup (str "subscribed") with
  | none => ⟨t, .panicked⟩
  | some fs =>
    let subscribed := fs.Changed
    match cmd.Flags.Lookup (str "unsubscribed") with
    | none => ⟨t, .panicked⟩
    | some fu =>
      let unsubscribed := fu.Changed
      if subscribed && unsubscribed then
        ⟨t ++ [Event.logFatal
          (str "You cannot use both the subscribed flag and the unsubscribed flag")],
          .exited 1⟩
      else
        let layerID := cfg.Tenant
        let headers := GoMap.empty
        let headers := headers.set (str "layer-type") (str "TENANT")
        let headers := headers.set (str "layer-id") layerID
        -- get data and display
        let solutionBaseURL := getSolutionListUrl
        let solutionBaseURL :=
          if subscribed then
            solutionBaseURL ++ (str "?filter=" ++ url.QueryEscape (str "data.isSubscribed eq true"))
          else if unsubscribed then
            solutionBaseURL ++ (str "?filter=" ++ url.QueryEscape (str "data.isSubscribed ne true"))
          else solutionBaseURL
        ⟨t ++ [Event.println solutionBaseURL,
            Event.FetchAndPrint cmd solutionBaseURL ⟨headers, true⟩],
          .delegated⟩

/-- The result of `getSolutionNames`: the returned `names` and what it did. -/
structure NamesRun where
  names : List GoString
  trace : List Event
  deriving DecidableEq, Repr

/-- Go: `func getSolutionNames(prefix string) (names []string)`, with the
current context `cfg` and the fetch client `JSONGet`, which answers a path
and options with an error or the decoded `SolutionList`. -/
def getSolutionNames (cfg : Context)
    (JSONGet : GoString → Options → Except GoError SolutionList) (pfx : GoString) : NamesRun :=
  let names : List GoString := []
  let headers := GoMap.empty
  let headers := headers.set (str "layer-type") (str "TENANT")
  let headers := headers.set (str "layer-id") cfg.Tenant
  let httpOptions : Options := ⟨headers⟩
  let t := [Event.JSONGet getSolutionListUrl httpOptions]
  match JSONGet getSolutionListUrl httpOptions with
  | .error _ => ⟨names, t⟩
  | .ok res =>
    let names := res.Items.foldl
      (fun names s => if strings.HasPrefix s.ID pfx then names ++ [s.ID] else names) names
    ⟨names, t⟩

/-! ## Observations on a run -/

/-- The calls handed to `cmdkit.FetchAndPrint`: path and options. -/
def fetchCalls : List Event → List (GoString × FetchAndPrintOptions)
  | [] => []
  | Event.FetchAndPrint _ path options :: rest => (path, options) :: fetchCalls rest
  | _ :: rest => fetchCalls rest

/-- The calls handed to `api.JSONGet`: path and options. -/
def jsonGetCalls : List Event → List (GoString × Options)
  | [] => []
  | Event.JSONGet path options :: rest => (path, options) :: jsonGetCalls rest
  | _ :: rest => jsonGetCalls rest

/-- The messages of the fatal log lines. -/
def fatalMessages : List Event → List GoString
  | [] => []
  | Event.logFatal msg :: rest => msg :: fatalMessages rest
  | _ :: rest => fatalMessages rest

/-- The request URLs of a run of the list command. -/
def requestURLs (r : Run) : List GoString := (fetchCalls r.trace).map Prod.fst

/-- The request headers of a run of the list command. -/
def requestHeaders (r : Run) : List GoMap := (fetchCalls r.trace).map (fun c => c.2.Headers)

/-- The outcome of a run of the list command: how it stopped, its usage
errors, and the URL and headers of its requests. -/
structure Outcome where
  status : Status
  usageErrors : List GoString
  requests : List (GoString × GoMap)
  deriving DecidableEq, Repr

/-- The outcome of a run. -/
def outcome (r : Run) : Outcome :=
  ⟨r.status, fatalMessages r.trace, (fetchCalls r.trace).map (fun c => (c.1, c.2.Headers))⟩

/-- The number of positions of `s` at which `pat` starts. -/
def occurrences (pat : GoString) : GoString → Nat
  | [] => 0
  | c :: rest => (if pat.isPrefixOf (c :: rest) then 1 else 0) + occurrences pat rest

/-- An invocation of the list command: for each flag, `none` when it was not
passed and `some v` when it was passed with value `v`. -/
def invoke (subscribed unsubscribed : Option Bool) : Command :=
  let flags := getSolutionListCmd.Flags
  let flags := match subscribed with
    | none => flags
    | some v => flags.Set (str "subscribed") v
  let flags := match unsubscribed with
    | none => flags
    | some v => flags.Set (str "unsubscribed") v
  ⟨flags⟩

/-- The two headers of a tenant-scoped request, in the order of the map
literal of `list.go`. -/
def tenantHeaders (tenant : GoString) : GoMap :=
  ⟨[(str "layer-type", str "TENANT"), (str "layer-id", tenant)]⟩

/-! ## Lemmas -/

theorem headers_literal (tenant : GoString) :
    (GoMap.empty.set (str "layer-type") (str "TENANT")).set (str "layer-id") tenant
      = tenantHeaders tenant := by
  have h : str "layer-type" ≠ str "layer-id" := by decide
  simp [GoMap.set, GoMap.empty, tenantHeaders, h]

theorem getSolutionList_of_lookup (cfg : Context) (cmd : Command) (args : List GoString)
    (fs fu : Flag)
    (hs : cmd.Flags.Lookup (str "subscribed") = some fs)
    (hu : cmd.Flags.Lookup (str "unsubscribed") = some fu) :
    getSolutionList cfg cmd args =
      if fs.Changed && fu.Changed then
        ⟨[Event.logInfo (str "Fetching the list of solutions..."),
          Event.logFatal
            (str "You cannot use both the subscribed flag and the unsubscribed flag")],
          .exited 1⟩
      else
        let u :=
          if fs.Changed then
            getSolutionListUrl ++
              (str "?filter=" ++ url.QueryEscape (str "data.isSubscribed eq true"))
          else if fu.Changed then
            getSolutionListUrl ++
              (str "?filter=" ++ url.QueryEscape (str "data.isSubscribed ne true"))
          else getSolutionListUrl
        ⟨[Event.logInfo (str "Fetching the list of solutions..."), Event.println u,
          Event.FetchAndPrint cmd u ⟨tenantHeaders cfg.Tenant, true⟩], .delegated⟩ := by
  simp only [getSolutionList, hs, hu, headers_literal]
  split <;> rfl

/-- The request URLs of any run of the list command: none, or one of the
three URLs the command can build. -/
theorem requestURLs_cases (cfg : Context) (cmd : Command) (args : List GoString) :
    requestURLs (getSolutionList cfg cmd args) = [] ∨
    requestURLs (getSolutionList cfg cmd args) = [getSolutionListUrl] ∨
    requestURLs (getSolutionList cfg cmd args) =
      [getSolutionListUrl ++
        (str "?filter=" ++ url.QueryEscape (str "data.isSubscribed eq true"))] ∨
    requestURLs (getSolutionList cfg cmd args) =
      [getSolutionListUrl ++
        (str "?filter=" ++ url.QueryEscape (str "data.isSubscribed ne true"))] := by
  cases hs : cmd.Flags.Lookup (str "subscribed") with
  | none => left; simp [getSolutionList, hs, requestURLs, fetchCalls]
  | some fs =>
    cases hu : cmd.Flags.Lookup (str "unsubscribed") with
    | none => left; simp [getSolutionList, hs, hu, requestURLs, fetchCalls]
    | some fu =>
      rw [getSolutionList_of_lookup cfg cmd args fs fu hs hu]
      cases h1 : fs.Changed <;> cases h2 : fu.Changed <;>
        simp [requestURLs, fetchCalls]

/-- The test of `strings.HasPrefix` is the plain byte-wise "starts with". -/
theorem HasPrefix_iff (s pfx : GoString) : strings.HasPrefix s pfx = true ↔ pfx <+: s := by
  unfold strings.HasPrefix
  rw [List.prefix_iff_eq_take]
  constructor
  · intro h
    simp only [Bool.and_eq_true, decide_eq_true_eq, beq_iff_eq] at h
    exact h.2.symm
  · intro h
    simp only [Bool.and_eq_true, decide_eq_true_eq, beq_iff_eq]
    refine ⟨?_, h.symm⟩
    have hl := congrArg List.length h
    rw [List.length_take] at hl
    omega

/-- The loop of `getSolutionNames` appends, to what it starts from, the
identifiers that pass the test, in order. -/
theorem names_loop (pfx : GoString) (items : List Solution) (acc : List GoString) :
    items.foldl
        (fun names s => if strings.HasPrefix s.ID pfx then names ++ [s.ID] else names) acc
      = acc ++ (items.map Solution.ID).filter (fun id => strings.HasPrefix id pfx) := by
  induction items generalizing acc with
  | nil => simp
  | cons s rest ih =>
    simp only [List.foldl_cons, List.map_cons, List.filter_cons]
    rw [ih]
    split <;> simp

/-! ## `QueryUnescape` inverts `QueryEscape` -/

namespace url

/-- The two hex digits written for a byte are hex digits, and reading them
back gives the byte. -/
theorem hex_digits (c : Nat) (hc : c < 256) :
    ishex (upperhex.getD (c >>> 4) 0) = true ∧ ishex (upperhex.getD (c &&& 15) 0) = true ∧
    (((unhex (upperhex.getD (c >>> 4) 0) <<< 4) % 256) ||| unhex (upperhex.getD (c &&& 15) 0))
      = c := by
  revert c
  decide

theorem shouldEscape_space : shouldEscape (byte ' ') = true := by decide

theorem shouldEscape_percent : shouldEscape (byte '%') = true := by decide

theorem shouldEscape_plus : shouldEscape (byte '+') = true := by decide

/-- The counting loop of `escape`, from any starting counts. -/
theorem escapeCount_foldl (s : GoString) (acc : Nat × Nat) :
    s.foldl
        (fun acc c =>
          if shouldEscape c then
            if c = byte ' ' then (acc.1 + 1, acc.2) else (acc.1, acc.2 + 1)
          else acc)
        acc
      = (acc.1 + s.countP (fun c => decide (c = byte ' ')),
         acc.2 + s.countP (fun c => shouldEscape c && decide (c ≠ byte ' '))) := by
  induction s generalizing acc with
  | nil => simp
  | cons c rest ih =>
    rw [List.foldl_cons, ih, List.countP_cons, List.countP_cons]
    by_cases h : c = byte ' '
    · subst h
      simp [shouldEscape_space]
      omega
    · cases hse : shouldEscape c <;> simp [h]
      omega

/-- Without a byte to escape, the main loop of `escape` copies its input. -/
theorem escapeLoop_eq_self (s : GoString) (h : ∀ c ∈ s, shouldEscape c = false) :
    escapeLoop s = s := by
  induction s with
  | nil => rfl
  | cons c rest ih =>
    have hc : shouldEscape c = false := h c (List.mem_cons_self c rest)
    have hsp : c ≠ byte ' ' := fun e => by rw [e, shouldEscape_space] at hc; cases hc
    rw [escapeLoop, if_neg hsp, hc, ih (fun d hd => h d (List.mem_cons_of_mem c hd))]
    simp

/-- With only spaces to escape, the main loop of `escape` overwrites them. -/
theorem escapeLoop_eq_map (s : GoString)
    (h : ∀ c ∈ s, (shouldEscape c && decide (c ≠ byte ' ')) = false) :
    escapeLoop s = s.map (fun c => if c = byte ' ' then byte '+' else c) := by
  induction s with
  | nil => rfl
  | cons c rest ih =>
    have hc := h c (List.mem_cons_self c rest)
    rw [escapeLoop, ih (fun d hd => h d (List.mem_cons_of_mem c hd)), List.map_cons]
    by_cases hsp : c = byte ' '
    · simp [hsp]
    · have hse : shouldEscape c = false := by simpa [hsp] using hc
      simp [hsp, hse]

/-- The early exits of `escape` agree with its main loop. -/
theorem escape_eq_escapeLoop (s : GoString) : escape s = escapeLoop s := by
  unfold escape escapeCount
  rw [escapeCount_foldl]
  simp only [Nat.zero_add]
  split
  · rename_i h
    rw [escapeLoop_eq_self]
    intro c hc
    have h1 := List.countP_eq_zero.mp h.1 c hc
    have h2 := List.countP_eq_zero.mp h.2 c hc
    cases hse : shouldEscape c
    · rfl
    · simp [hse] at h1 h2
      exact absurd h2 h1
  · split
    · rename_i h
      rw [escapeLoop_eq_map]
      intro c hc
      have h2 := List.countP_eq_zero.mp h c hc
      simpa using h2
    · rfl

theorem unescapeBuild_percent (h1 h2 : Nat) (rest : GoString) :
    unescapeBuild (byte '%' :: h1 :: h2 :: rest)
      = (((unhex h1 <<< 4) % 256) ||| unhex h2) :: unescapeBuild rest := by
  simp [unescapeBuild]

theorem unescapeBuild_plus (rest : GoString) :
    unescapeBuild (byte '+' :: rest) = byte ' ' :: unescapeBuild rest := by
  have h : byte '+' ≠ byte '%' := by decide
  rcases rest with _ | ⟨a, _ | ⟨b, r⟩⟩ <;> simp [unescapeBuild, h]

theorem unescapeBuild_copy (c : Nat) (rest : GoString) (h1 : c ≠ byte '%')
    (h2 : c ≠ byte '+') : unescapeBuild (c :: rest) = c :: unescapeBuild rest := by
  rcases rest with _ | ⟨a, _ | ⟨b, r⟩⟩ <;> simp [unescapeBuild, h1, h2]

theorem unescapeScan_percent (h1 h2 : Nat) (rest : GoString) (n : Nat) (hasPlus : Bool)
    (hh1 : ishex h1 = true) (hh2 : ishex h2 = true) :
    unescapeScan (byte '%' :: h1 :: h2 :: rest) n hasPlus
      = unescapeScan rest (n + 1) hasPlus := by
  simp [unescapeScan, hh1, hh2]

theorem unescapeScan_plus (rest : GoString) (n : Nat) (hasPlus : Bool) :
    unescapeScan (byte '+' :: rest) n hasPlus = unescapeScan rest n true := by
  have h : byte '+' ≠ byte '%' := by decide
  rcases rest with _ | ⟨a, _ | ⟨b, r⟩⟩ <;> simp [unescapeScan, h]

theorem unescapeScan_copy (c : Nat) (rest : GoString) (n : Nat) (hasPlus : Bool)
    (h1 : c ≠ byte '%') (h2 : c ≠ byte '+') :
    unescapeScan (c :: rest) n hasPlus = unescapeScan rest n hasPlus := by
  rcases rest with _ | ⟨a, _ | ⟨b, r⟩⟩ <;> simp [unescapeScan, h1, h2]

/-- Reading back the output of the main loop of `escape`. -/
theorem unescapeBuild_escapeLoop (s : GoString) (hs : ∀ c ∈ s, c < 256) :
    unescapeBuild (escapeLoop s) = s := by
  induction s with
  | nil => rfl
  | cons c rest ih =>
    have ih := ih (fun d hd => hs d (List.mem_cons_of_mem c hd))
    have hc := hs c (List.mem_cons_self c rest)
    rw [escapeLoop]
    by_cases hsp : c = byte ' '
    · rw [if_pos hsp, unescapeBuild_plus, ih, hsp]
    · rw [if_neg hsp]
      cases hse : shouldEscape c
      · have h1 : c ≠ byte '%' := fun e => by rw [e, shouldEscape_percent] at hse; cases hse
        have h2 : c ≠ byte '+' := fun e => by rw [e, shouldEscape_plus] at hse; cases hse
        simp only [Bool.false_eq_true, if_false]
        rw [unescapeBuild_copy c _ h1 h2, ih]
      · simp only [if_true]
        rw [unescapeBuild_percent, (hex_digits c hc).2.2, ih]

/-- The checking loop of `unescape` accepts the output of the main loop of
`escape`; its counts only grow, and when they did not move nothing was
escaped. -/
theorem unescapeScan_escapeLoop (s : GoString) (hs : ∀ c ∈ s, c < 256) (n : Nat)
    (hasPlus : Bool) :
    ∃ n2 hasPlus2, unescapeScan (escapeLoop s) n hasPlus = Except.ok (n2, hasPlus2) ∧
      n ≤ n2 ∧ (hasPlus = true → hasPlus2 = true) ∧
      (n2 = n → hasPlus2 = false → escapeLoop s = s) := by
  induction s generalizing n hasPlus with
  | nil => exact ⟨n, hasPlus, rfl, le_refl n, id, fun _ _ => rfl⟩
  | cons c rest ih =>
    have hrest : ∀ d ∈ rest, d < 256 := fun d hd => hs d (List.mem_cons_of_mem c hd)
    have hc := hs c (List.mem_cons_self c rest)
    rw [escapeLoop]
    by_cases hsp : c = byte ' '
    · obtain ⟨n2, p2, h1, h2, h3, _⟩ := ih hrest n true
      refine ⟨n2, p2, ?_, h2, fun _ => h3 rfl, ?_⟩
      · rw [if_pos hsp, unescapeScan_plus, h1]
      · intro _ hp
        rw [h3 rfl] at hp
        cases hp
    · rw [if_neg hsp]
      cases hse : shouldEscape c
      · have e1 : c ≠ byte '%' := fun e => by rw [e, shouldEscape_percent] at hse; cases hse
        have e2 : c ≠ byte '+' := fun e => by rw [e, shouldEscape_plus] at hse; cases hse
        obtain ⟨n2, p2, h1, h2, h3, h4⟩ := ih hrest n hasPlus
        refine ⟨n2, p2, ?_, h2, h3, ?_⟩
        · simp only [Bool.false_eq_true, if_false]
          rw [unescapeScan_copy c _ n hasPlus e1 e2, h1]
        · intro hn hp
          simp only [Bool.false_eq_true, if_false]
          rw [h4 hn hp]
      · obtain ⟨n2, p2, h1, h2, h3, _⟩ := ih hrest (n + 1) hasPlus
        refine ⟨n2, p2, ?_, by omega, h3, ?_⟩
        · simp only [if_true]
          rw [unescapeScan_percent _ _ _ n hasPlus (hex_digits c hc).1 (hex_digits c hc).2.1, h1]
        · intro hn _
          omega

/-- For every byte string, `QueryUnescape` succeeds on the output of
`QueryEscape` and gives the string back. -/
theorem QueryUnescape_QueryEscape (s : GoString) (hs : ∀ c ∈ s, c < 256) :
    QueryUnescape (QueryEscape s) = Except.ok s := by
  unfold QueryUnescape QueryEscape unescape
  rw [escape_eq_escapeLoop]
  obtain ⟨n2, p2, h1, _, _, h4⟩ := unescapeScan_escapeLoop s hs 0 false
  rw [h1]
  simp only []
  split
  · rename_i h
    rw [h4 h.1 h.2]
  · rw [unescapeBuild_escapeLoop s hs]

end url

/-! ## The list command -/

/-- C1: when both `--subscribed` and `--unsubscribed` are marked changed, for
every tenant the run stops with exit status 1 right after the fatal usage
error, and its trace holds no call to `FetchAndPrint`. -/
theorem getSolutionList_both_flags_fatal (cfg : Context) (cmd : Command)
    (args : List GoString) (fs fu : Flag)
    (hs : cmd.Flags.Lookup (str "subscribed") = some fs)
    (hu : cmd.Flags.Lookup (str "unsubscribed") = some fu)
    (hcs : fs.Changed = true) (hcu : fu.Changed = true) :
    (getSolutionList cfg cmd args).status = Status.exited 1 ∧
    (getSolutionList cfg cmd args).trace.getLast? = some (Event.logFatal
      (str "You cannot use both the subscribed flag and the unsubscribed flag")) ∧
    fetchCalls (getSolutionList cfg cmd args).trace = [] ∧
    ∀ c path options,
      Event.FetchAndPrint c path options ∉ (getSolutionList cfg cmd args).trace := by
  rw [getSolutionList_of_lookup cfg cmd args fs fu hs hu]
  simp [hcs, hcu, fetchCalls]

/-- C1, at the invocation `list --subscribed --unsubscribed` for tenant
`acme`. -/
theorem getSolutionList_both_flags_fatal_witness :
    (invoke (some true) (some true)).Flags.Lookup (str "subscribed")
      = some ⟨str "subscribed", true, true⟩ ∧
    (invoke (some true) (some true)).Flags.Lookup (str "unsubscribed")
      = some ⟨str "unsubscribed", true, true⟩ ∧
    (getSolutionList ⟨str "acme"⟩ (invoke (some true) (some true)) []).status
      = Status.exited 1 ∧
    fetchCalls (getSolutionList ⟨str "acme"⟩ (invoke (some true) (some true)) []).trace = [] :=
  have h := getSolutionList_both_flags_fatal ⟨str "acme"⟩ (invoke (some true) (some true)) []
    ⟨str "subscribed", true, true⟩ ⟨str "unsubscribed", true, true⟩
    (by decide) (by decide) rfl rfl
  ⟨by decide, by decide, h.1, h.2.2.1⟩

/-- C2: with neither flag marked changed, for every tenant the one URL handed
to `FetchAndPrint` is the value of `getSolutionListUrl`, the fixed path
`objstore/v1beta/objects/extensibility:solution`, which holds no `?` and no
`filter=`. -/
theorem getSolutionList_no_flag_url (cfg : Context) (cmd : Command)
    (args : List GoString) (fs fu : Flag)
    (hs : cmd.Flags.Lookup (str "subscribed") = some fs)
    (hu : cmd.Flags.Lookup (str "unsubscribed") = some fu)
    (hcs : fs.Changed = false) (hcu : fu.Changed = false) :
    requestURLs (getSolutionList cfg cmd args) = [getSolutionListUrl] ∧
    getSolutionListUrl = str "objstore/v1beta/objects/extensibility:solution" ∧
    byte '?' ∉ getSolutionListUrl ∧
    ¬ (str "filter=" <:+: getSolutionListUrl) := by
  rw [getSolutionList_of_lookup cfg cmd args fs fu hs hu]
  refine ⟨?_, rfl, by decide, by decide⟩
  simp [hcs, hcu, requestURLs, fetchCalls]

/-- C2, at the invocation `list` for tenant `acme`. -/
theorem getSolutionList_no_flag_url_witness :
    (invoke none none).Flags.Lookup (str "subscribed") = some ⟨str "subscribed", false, false⟩ ∧
    (invoke none none).Flags.Lookup (str "unsubscribed")
      = some ⟨str "unsubscribed", false, false⟩ ∧
    requestURLs (getSolutionList ⟨str "acme"⟩ (invoke none none) []) = [getSolutionListUrl] :=
  ⟨by decide, by decide,
    (getSolutionList_no_flag_url ⟨str "acme"⟩ (invoke none none) []
      ⟨str "subscribed", false, false⟩ ⟨str "unsubscribed", false, false⟩
      (by decide) (by decide) rfl rfl).1⟩

/-- C3: with `--subscribed` marked changed and `--unsubscribed` not, the one
request URL is the fixed path, then `?filter=`, then an encoded value `e`
(the query-escape of the clause), and query-unescaping `e` gives exactly
`data.isSubscribed eq true`. -/
theorem getSolutionList_subscribed_url (cfg : Context) (cmd : Command)
    (args : List GoString) (fs fu : Flag)
    (hs : cmd.Flags.Lookup (str "subscribed") = some fs)
    (hu : cmd.Flags.Lookup (str "unsubscribed") = some fu)
    (hcs : fs.Changed = true) (hcu : fu.Changed = false) :
    ∃ e : GoString,
      requestURLs (getSolutionList cfg cmd args)
        = [str "objstore/v1beta/objects/extensibility:solution" ++ str "?filter=" ++ e] ∧
      e = url.QueryEscape (str "data.isSubscribed eq true") ∧
      url.QueryUnescape e = Except.ok (str "data.isSubscribed eq true") := by
  refine ⟨url.QueryEscape (str "data.isSubscribed eq true"), ?_, rfl, by decide⟩
  rw [getSolutionList_of_lookup cfg cmd args fs fu hs hu]
  simp [hcs, hcu, requestURLs, fetchCalls, getSolutionListUrl]

/-- C3, at the invocation `list --subscribed` for tenant `acme`. -/
theorem getSolutionList_subscribed_url_witness :
    (invoke (some true) none).Flags.Lookup (str "subscribed")
      = some ⟨str "subscribed", true, true⟩ ∧
    (invoke (some true) none).Flags.Lookup (str "unsubscribed")
      = some ⟨str "unsubscribed", false, false⟩ ∧
    ∃ e : GoString,
      requestURLs (getSolutionList ⟨str "acme"⟩ (invoke (some true) none) [])
        = [str "objstore/v1beta/objects/extensibility:solution" ++ str "?filter=" ++ e] ∧
      e = url.QueryEscape (str "data.isSubscribed eq true") ∧
      url.QueryUnescape e = Except.ok (str "data.isSubscribed eq true") :=
  ⟨by decide, by decide,
    getSolutionList_subscribed_url ⟨str "acme"⟩ (invoke (some true) none) []
      ⟨str "subscribed", true, true⟩ ⟨str "unsubscribed", false, false⟩
      (by decide) (by decide) rfl rfl⟩

/-- C4: with `--unsubscribed` marked changed and `--subscribed` not, the one
request URL is the fixed path, then `?filter=`, then an encoded value `e`
(the query-escape of the clause), and query-unescaping `e` gives exactly
`data.isSubscribed ne true`. -/
theorem getSolutionList_unsubscribed_url (cfg : Context) (cmd : Command)
    (args : List GoString) (fs fu : Flag)
    (hs : cmd.Flags.Lookup (str "subscribed") = some fs)
    (hu : cmd.Flags.Lookup (str "unsubscribed") = some fu)
    (hcs : fs.Changed = false) (hcu : fu.Changed = true) :
    ∃ e : GoString,
      requestURLs (getSolutionList cfg cmd args)
        = [str "objstore/v1beta/objects/extensibility:solution" ++ str "?filter=" ++ e] ∧
      e = url.QueryEscape (str "data.isSubscribed ne true") ∧
      url.QueryUnescape e = Except.ok (str "data.isSubscribed ne true") := by
  refine ⟨url.QueryEscape (str "data.isSubscribed ne true"), ?_, rfl, by decide⟩
  rw [getSolutionList_of_lookup cfg cmd args fs fu hs hu]
  simp [hcs, hcu, requestURLs, fetchCalls, getSolutionListUrl]

/-- C4, at the invocation `list --unsubscribed` for tenant `acme`. -/
theorem getSolutionList_unsubscribed_url_witness :
    (invoke none (some true)).Flags.Lookup (str "subscribed")
      = some ⟨str "subscribed", false, false⟩ ∧
    (invoke none (some true)).Flags.Lookup (str "unsubscribed")
      = some ⟨str "unsubscribed", true, true⟩ ∧
    ∃ e : GoString,
      requestURLs (getSolutionList ⟨str "acme"⟩ (invoke none (some true)) [])
        = [str "objstore/v1beta/objects/extensibility:solution" ++ str "?filter=" ++ e] ∧
      e = url.QueryEscape (str "data.isSubscribed ne true") ∧
      url.QueryUnescape e = Except.ok (str "data.isSubscribed ne true") :=
  ⟨by decide, by decide,
    getSolutionList_unsubscribed_url ⟨str "acme"⟩ (invoke none (some true)) []
      ⟨str "subscribed", false, false⟩ ⟨str "unsubscribed", true, true⟩
      (by decide) (by decide) rfl rfl⟩

/-- C7: whenever the two flags are not both marked changed, for every tenant
`t` the headers handed to `FetchAndPrint` are the map with exactly the two
entries `layer-type = TENANT` and `layer-id = t`, whichever flag is set. -/
theorem getSolutionList_headers (cfg : Context) (cmd : Command)
    (args : List GoString) (fs fu : Flag)
    (hs : cmd.Flags.Lookup (str "subscribed") = some fs)
    (hu : cmd.Flags.Lookup (str "unsubscribed") = some fu)
    (hnot : ¬ (fs.Changed = true ∧ fu.Changed = true)) :
    ∃ headers : GoMap,
      requestHeaders (getSolutionList cfg cmd args) = [headers] ∧
      headers.entries = [(str "layer-type", str "TENANT"), (str "layer-id", cfg.Tenant)] ∧
      headers.get (str "layer-type") = some (str "TENANT") ∧
      headers.get (str "layer-id") = some cfg.Tenant ∧
      ∀ k, k ≠ str "layer-type" → k ≠ str "layer-id" → headers.get k = none := by
  have hne : str "layer-type" ≠ str "layer-id" := by decide
  refine ⟨tenantHeaders cfg.Tenant, ?_, rfl, ?_, ?_, ?_⟩
  · rw [getSolutionList_of_lookup cfg cmd args fs fu hs hu]
    have hb : (fs.Changed && fu.Changed) = false := by
      cases h1 : fs.Changed <;> cases h2 : fu.Changed <;> simp_all
    simp [hb, requestHeaders, fetchCalls]
  · simp [GoMap.get, tenantHeaders]
  · simp [GoMap.get, tenantHeaders, hne]
  · intro k h1 h2
    have e1 : (str "layer-type" == k) = false := beq_false_of_ne (Ne.symm h1)
    have e2 : (str "layer-id" == k) = false := beq_false_of_ne (Ne.symm h2)
    simp only [GoMap.get, tenantHeaders, List.find?_cons, e1, e2, List.find?_nil, Option.map_none']

/-- C7, at the invocation `list --unsubscribed=false` for tenant `acme`. -/
theorem getSolutionList_headers_witness :
    (invoke none (some false)).Flags.Lookup (str "subscribed")
      = some ⟨str "subscribed", false, false⟩ ∧
    (invoke none (some false)).Flags.Lookup (str "unsubscribed")
      = some ⟨str "unsubscribed", false, true⟩ ∧
    ∃ headers : GoMap,
      requestHeaders (getSolutionList ⟨str "acme"⟩ (invoke none (some false)) []) = [headers] ∧
      headers.entries = [(str "layer-type", str "TENANT"), (str "layer-id", str "acme")] ∧
      headers.get (str "layer-type") = some (str "TENANT") ∧
      headers.get (str "layer-id") = some (str "acme") ∧
      ∀ k, k ≠ str "layer-type" → k ≠ str "layer-id" → headers.get k = none :=
  ⟨by decide, by decide,
    getSolutionList_headers ⟨str "acme"⟩ (invoke none (some false)) []
      ⟨str "subscribed", false, false⟩ ⟨str "unsubscribed", false, true⟩
      (by decide) (by decide) (by decide)⟩

/-- C9: for every flag set and every tenant, a run of the list command hands
over at most one request, and in any request URL `filter=` starts at most
once and the encoded `eq true` clause and the encoded `ne true` clause are
never both present. -/
theorem getSolutionList_at_most_one_filter (cfg : Context) (cmd : Command)
    (args : List GoString) :
    (requestURLs (getSolutionList cfg cmd args)).length ≤ 1 ∧
    ∀ u ∈ requestURLs (getSolutionList cfg cmd args),
      occurrences (str "filter=") u ≤ 1 ∧
      ¬ (url.QueryEscape (str "data.isSubscribed eq true") <:+: u ∧
         url.QueryEscape (str "data.isSubscribed ne true") <:+: u) := by
  rcases requestURLs_cases cfg cmd args with h | h | h | h <;> rw [h]
  · simp
  · refine ⟨by simp, ?_⟩
    intro u hu
    rw [List.mem_singleton] at hu
    subst hu
    decide
  · refine ⟨by simp, ?_⟩
    intro u hu
    rw [List.mem_singleton] at hu
    subst hu
    decide
  · refine ⟨by simp, ?_⟩
    intro u hu
    rw [List.mem_singleton] at hu
    subst hu
    decide

/-- C9, at the request URL of the invocation `list --subscribed` for tenant
`acme`. -/
theorem getSolutionList_at_most_one_filter_witness :
    str "objstore/v1beta/objects/extensibility:solution?filter=data.isSubscribed+eq+true"
      ∈ requestURLs (getSolutionList ⟨str "acme"⟩ (invoke (some true) none) []) ∧
    occurrences (str "filter=")
      (str "objstore/v1beta/objects/extensibility:solution?filter=data.isSubscribed+eq+true")
        ≤ 1 ∧
    ¬ (url.QueryEscape (str "data.isSubscribed eq true") <:+:
        str "objstore/v1beta/objects/extensibility:solution?filter=data.isSubscribed+eq+true" ∧
       url.QueryEscape (str "data.isSubscribed ne true") <:+:
        str "objstore/v1beta/objects/extensibility:solution?filter=data.isSubscribed+eq+true") :=
  ⟨by decide,
    (getSolutionList_at_most_one_filter ⟨str "acme"⟩ (invoke (some true) none) []).2
      (str "objstore/v1beta/objects/extensibility:solution?filter=data.isSubscribed+eq+true")
      (by decide)⟩

/-- C10: two invocations for the same tenant whose flags carry the same
`Changed` marks have the same outcome (status, usage error, request URL and
headers), whatever the flag values; and a changed `--subscribed` with value
`false` and an unchanged `--unsubscribed` give the URL whose filter decodes
to `data.isSubscribed eq true`. -/
theorem getSolutionList_outcome_of_Changed (cfg : Context) (cmd1 cmd2 : Command)
    (args1 args2 : List GoString) (fs1 fu1 fs2 fu2 : Flag)
    (hs1 : cmd1.Flags.Lookup (str "subscribed") = some fs1)
    (hu1 : cmd1.Flags.Lookup (str "unsubscribed") = some fu1)
    (hs2 : cmd2.Flags.Lookup (str "subscribed") = some fs2)
    (hu2 : cmd2.Flags.Lookup (str "unsubscribed") = some fu2)
    (hcs : fs1.Changed = fs2.Changed) (hcu : fu1.Changed = fu2.Changed) :
    outcome (getSolutionList cfg cmd1 args1) = outcome (getSolutionList cfg cmd2 args2) ∧
    (fs1.Value = false → fs1.Changed = true → fu1.Changed = false →
      ∃ e : GoString,
        requestURLs (getSolutionList cfg cmd1 args1)
          = [str "objstore/v1beta/objects/extensibility:solution" ++ str "?filter=" ++ e] ∧
        url.QueryUnescape e = Except.ok (str "data.isSubscribed eq true")) := by
  constructor
  · rw [getSolutionList_of_lookup cfg cmd1 args1 fs1 fu1 hs1 hu1,
      getSolutionList_of_lookup cfg cmd2 args2 fs2 fu2 hs2 hu2, ← hcs, ← hcu]
    cases fs1.Changed <;> cases fu1.Changed <;> simp [outcome, fatalMessages, fetchCalls]
  · intro _ h1 h2
    refine ⟨url.QueryEscape (str "data.isSubscribed eq true"), ?_, by decide⟩
    rw [getSolutionList_of_lookup cfg cmd1 args1 fs1 fu1 hs1 hu1]
    simp [h1, h2, requestURLs, fetchCalls, getSolutionListUrl]

/-- C10, at the invocations `list --subscribed=false` and `list --subscribed`
for tenant `acme`. -/
theorem getSolutionList_outcome_of_Changed_witness :
    (invoke (some false) none).Flags.Lookup (str "subscribed")
      = some ⟨str "subscribed", false, true⟩ ∧
    (invoke (some true) none).Flags.Lookup (str "subscribed")
      = some ⟨str "subscribed", true, true⟩ ∧
    outcome (getSolutionList ⟨str "acme"⟩ (invoke (some false) none) [])
      = outcome (getSolutionList ⟨str "acme"⟩ (invoke (some true) none) []) ∧
    ∃ e : GoString,
      requestURLs (getSolutionList ⟨str "acme"⟩ (invoke (some false) none) [])
        = [str "objstore/v1beta/objects/extensibility:solution" ++ str "?filter=" ++ e] ∧
      url.QueryUnescape e = Except.ok (str "data.isSubscribed eq true") :=
  have h := getSolutionList_outcome_of_Changed ⟨str "acme"⟩
    (invoke (some false) none) (invoke (some true) none) [] []
    ⟨str "subscribed", false, true⟩ ⟨str "unsubscribed", false, false⟩
    ⟨str "subscribed", true, true⟩ ⟨str "unsubscribed", false, false⟩
    (by decide) (by decide) (by decide) (by decide) rfl rfl
  ⟨by decide, by decide, h.1, h.2 rfl rfl rfl⟩

/-! ## The name lookup helper -/

/-- C5: when the fetch client answers the helper's request with a decoded
list, `getSolutionNames p` returns the identifiers of the items that start
with `p` (byte for byte), in the order of the response, duplicates kept:
the filter by "starts with `p`" of the identifiers. -/
theorem getSolutionNames_eq_filter (cfg : Context)
    (JSONGet : GoString → Options → Except GoError SolutionList) (pfx : GoString)
    (res : SolutionList)
    (hok : JSONGet getSolutionListUrl ⟨tenantHeaders cfg.Tenant⟩ = Except.ok res) :
    (getSolutionNames cfg JSONGet pfx).names
      = (res.Items.map Solution.ID).filter (fun id => decide (pfx <+: id)) := by
  simp only [getSolutionNames, headers_literal, hok, names_loop, List.nil_append]
  apply List.filter_congr
  intro id _
  rw [Bool.eq_iff_iff, HasPrefix_iff, decide_eq_true_eq]

/-- C5, at the response with identifiers `sol-a`, `sol-b`, `other` and the
argument `sol-`: the helper returns `sol-a`, `sol-b`. -/
theorem getSolutionNames_eq_filter_witness :
    (fun (_ : GoString) (_ : Options) =>
        (Except.ok ⟨[⟨str "sol-a", [], false, false, [], [], []⟩,
          ⟨str "sol-b", [], false, false, [], [], []⟩,
          ⟨str "other", [], false, false, [], [], []⟩]⟩ : Except GoError SolutionList))
      getSolutionListUrl ⟨tenantHeaders (str "acme")⟩
      = Except.ok ⟨[⟨str "sol-a", [], false, false, [], [], []⟩,
          ⟨str "sol-b", [], false, false, [], [], []⟩,
          ⟨str "other", [], false, false, [], [], []⟩]⟩ ∧
    (getSolutionNames ⟨str "acme"⟩
        (fun _ _ => Except.ok ⟨[⟨str "sol-a", [], false, false, [], [], []⟩,
          ⟨str "sol-b", [], false, false, [], [], []⟩,
          ⟨str "other", [], false, false, [], [], []⟩]⟩) (str "sol-")).names
      = [str "sol-a", str "sol-b"] :=
  ⟨rfl,
    (getSolutionNames_eq_filter ⟨str "acme"⟩
      (fun _ _ => Except.ok ⟨[⟨str "sol-a", [], false, false, [], [], []⟩,
          ⟨str "sol-b", [], false, false, [], [], []⟩,
          ⟨str "other", [], false, false, [], [], []⟩]⟩) (str "sol-")
      ⟨[⟨str "sol-a", [], false, false, [], [], []⟩,
          ⟨str "sol-b", [], false, false, [], [], []⟩,
          ⟨str "other", [], false, false, [], [], []⟩]⟩ rfl).trans (by decide)⟩

/-- C6: when the fetch client answers the helper's request with an error
(transport or decode), `getSolutionNames p` returns the empty sequence; its
result carries no error, and it did nothing but the one request (no log
line). -/
theorem getSolutionNames_error_empty (cfg : Context)
    (JSONGet : GoString → Options → Except GoError SolutionList) (pfx : GoString)
    (err : GoError)
    (herr : JSONGet getSolutionListUrl ⟨tenantHeaders cfg.Tenant⟩ = Except.error err) :
    (getSolutionNames cfg JSONGet pfx).names = [] ∧
    (getSolutionNames cfg JSONGet pfx).trace
      = [Event.JSONGet getSolutionListUrl ⟨tenantHeaders cfg.Tenant⟩] := by
  simp only [getSolutionNames, headers_literal, herr, and_self]

/-- C6, at a fetch client that fails with `invalid character` for tenant
`acme` and the argument `sol-`. -/
theorem getSolutionNames_error_empty_witness :
    (fun (_ : GoString) (_ : Options) =>
        (Except.error ⟨str "invalid character"⟩ : Except GoError SolutionList))
      getSolutionListUrl ⟨tenantHeaders (str "acme")⟩
      = Except.error ⟨str "invalid character"⟩ ∧
    (getSolutionNames ⟨str "acme"⟩
      (fun _ _ => Except.error ⟨str "invalid character"⟩) (str "sol-")).names = [] :=
  ⟨rfl,
    (getSolutionNames_error_empty ⟨str "acme"⟩
      (fun _ _ => Except.error ⟨str "invalid character"⟩) (str "sol-")
      ⟨str "invalid character"⟩ rfl).1⟩

/-- C8: for every argument `p`, tenant `t` and fetch client, the one request
of `getSolutionNames p` has the fixed path (no `?`, no `filter=`) and the
headers `layer-type = TENANT`, `layer-id = t`; it is the same for every other
argument, and its path and headers are those of the request of the list
command run with neither flag marked changed for tenant `t`. -/
theorem getSolutionNames_request (cfg : Context)
    (JSONGet : GoString → Options → Except GoError SolutionList) (pfx : GoString)
    (cmd : Command) (args : List GoString) (fs fu : Flag)
    (hs : cmd.Flags.Lookup (str "subscribed") = some fs)
    (hu : cmd.Flags.Lookup (str "unsubscribed") = some fu)
    (hcs : fs.Changed = false) (hcu : fu.Changed = false) :
    jsonGetCalls (getSolutionNames cfg JSONGet pfx).trace
      = [(str "objstore/v1beta/objects/extensibility:solution",
          ⟨⟨[(str "layer-type", str "TENANT"), (str "layer-id", cfg.Tenant)]⟩⟩)] ∧
    (∀ q : GoString, jsonGetCalls (getSolutionNames cfg JSONGet q).trace
      = jsonGetCalls (getSolutionNames cfg JSONGet pfx).trace) ∧
    (jsonGetCalls (getSolutionNames cfg JSONGet pfx).trace).map (fun c => (c.1, c.2.Headers))
      = (outcome (getSolutionList cfg cmd args)).requests ∧
    byte '?' ∉ str "objstore/v1beta/objects/extensibility:solution" ∧
    ¬ (str "filter=" <:+: str "objstore/v1beta/objects/extensibility:solution") := by
  have key : ∀ q : GoString, jsonGetCalls (getSolutionNames cfg JSONGet q).trace
      = [(getSolutionListUrl, ⟨tenantHeaders cfg.Tenant⟩)] := by
    intro q
    simp only [getSolutionNames, headers_literal]
    split <;> rfl
  refine ⟨key pfx, fun q => (key q).trans (key pfx).symm, ?_, by decide, by decide⟩
  rw [key pfx, getSolutionList_of_lookup cfg cmd args fs fu hs hu]
  simp [hcs, hcu, outcome, fetchCalls]

/-- C8, at the argument `sol-`, tenant `acme`, a failing fetch client, and
the invocation `list`. -/
theorem getSolutionNames_request_witness :
    (invoke none none).Flags.Lookup (str "subscribed") = some ⟨str "subscribed", false, false⟩ ∧
    (invoke none none).Flags.Lookup (str "unsubscribed")
      = some ⟨str "unsubscribed", false, false⟩ ∧
    jsonGetCalls (getSolutionNames ⟨str "acme"⟩
        (fun _ _ => Except.error ⟨str "timeout"⟩) (str "sol-")).trace
      = [(str "objstore/v1beta/objects/extensibility:solution",
          ⟨⟨[(str "layer-type", str "TENANT"), (str "layer-id", str "acme")]⟩⟩)] ∧
    (jsonGetCalls (getSolutionNames ⟨str "acme"⟩
        (fun _ _ => Except.error ⟨str "timeout"⟩) (str "sol-")).trace).map
        (fun c => (c.1, c.2.Headers))
      = (outcome (getSolutionList ⟨str "acme"⟩ (invoke none none) [])).requests :=
  have h := getSolutionNames_request ⟨str "acme"⟩ (fun _ _ => Except.error ⟨str "timeout"⟩)
    (str "sol-") (invoke none none) []
    ⟨str "subscribed", false, false⟩ ⟨str "unsubscribed", false, false⟩
    (by decide) (by decide) rfl rfl
  ⟨by decide, by decide, h.1, h.2.2.1⟩

/-! ## Checks of the escaping model on concrete strings -/

theorem QueryEscape_reserved :
    url.QueryEscape (str "a=b c/é") = str "a%3Db+c%2F%C3%A9" := by decide

theorem QueryUnescape_reserved :
    url.QueryUnescape (str "a%3Db+c%2F%C3%A9") = Except.ok (str "a=b c/é") := by decide

theorem QueryUnescape_truncated :
    url.QueryUnescape (str "a%3") = Except.error ⟨str "%3"⟩ := by decide

theorem QueryUnescape_not_hex :
    url.QueryUnescape (str "a%zz1") = Except.error ⟨str "%zz"⟩ := by decide

end Fsoc
